import Mathlib

/-!
Verification of the pixie network-observability core: the Cassandra/CQL
TypeDecoder (a bounds-checked cursor over an immutable byte buffer), the
generic request/response stitcher, and the ELF address converter.

The decoder state is modelled as the list of bytes not yet consumed
(mirroring the C++ `std::string_view` that shrinks from the front); a byte
is a `Nat` below 256.  Every extraction either returns a value together
with the remaining suffix of the buffer, or fails with the single error
kind `InsufficientData`.
-/

/-- Modelled from the spec: the single TypeDecoder error kind,
`InsufficientData` — fewer bytes remain than the field requires. -/
inductive DecodeError where
  | InsufficientData
deriving DecidableEq, Repr

/-- A decoding step: from the remaining bytes, produce a value and the new
remaining bytes, or fail. -/
def Decoder (α : Type) : Type :=
  List Nat → Except DecodeError (α × List Nat)

/-- Sequencing of two decoding steps; the second sees the bytes the first
left over.  A failure of either step is the failure of the whole. -/
def dbind {α β : Type} (p : Decoder α) (f : α → Decoder β) : Decoder β :=
  fun xs =>
    match p xs with
    | .ok (a, rest) => f a rest
    | .error e => .error e

/-- A decoding step that consumes nothing and returns `a`. -/
def dpure {α : Type} (a : α) : Decoder α :=
  fun xs => .ok (a, xs)

/-- Map a function over the value of a decoding step. -/
def dmap {α β : Type} (f : α → β) (p : Decoder α) : Decoder β :=
  dbind p (fun a => dpure (f a))

/-- Run `p` when `c` holds, otherwise consume nothing and return the
default `d` (used for the flag-gated fields of the composite records). -/
def dif {α : Type} (c : Bool) (p : Decoder α) (d : α) : Decoder α :=
  if c then p else dpure d

/-- Run a decoding step `n` times in sequence, collecting the values. -/
def dcount {α : Type} (n : Nat) (p : Decoder α) : Decoder (List α) :=
  match n with
  | 0 => dpure []
  | n + 1 => dbind p (fun a => dbind (dcount n p) (fun as => dpure (a :: as)))

/-- Modelled from the spec: the bounds check at the heart of every
extraction.  Take `n` raw bytes from the front of the remaining buffer;
fail with `InsufficientData` when fewer than `n` bytes remain. -/
def readN (n : Nat) : Decoder (List Nat) :=
  fun xs =>
    if n ≤ xs.length then .ok (xs.take n, xs.drop n)
    else .error .InsufficientData

/-- Big-endian interpretation of a byte list as an unsigned number. -/
def beNat (bs : List Nat) : Nat :=
  bs.foldl (fun a b => a * 256 + b) 0

/-- Reinterpret a `w`-bit unsigned value as a two's-complement signed
integer. -/
def toSigned (w : Nat) (n : Nat) : Int :=
  if n < 2 ^ (w - 1) then (n : Int) else (n : Int) - 2 ^ w

/-- Modelled from the spec (`src/stirling/cassandra/type_decoder.h` is not
in the source snapshot, only its test): byte — 1 raw byte. -/
def ExtractByte : Decoder Nat :=
  dmap beNat (readN 1)

/-- Modelled from the spec: short — 2-byte big-endian unsigned. -/
def ExtractShort : Decoder Nat :=
  dmap beNat (readN 2)

/-- Modelled from the spec: int — 4-byte big-endian signed. -/
def ExtractInt : Decoder Int :=
  dmap (fun bs => toSigned 32 (beNat bs)) (readN 4)

/-- Modelled from the spec: long — 8-byte big-endian signed. -/
def ExtractLong : Decoder Int :=
  dmap (fun bs => toSigned 64 (beNat bs)) (readN 8)

/-- Modelled from the spec: String — short length-prefix `L`, then `L` raw
bytes of text (kept as raw bytes here). -/
def ExtractString : Decoder (List Nat) :=
  dbind ExtractShort (fun l => readN l)

/-- Modelled from the spec: LongString — int32 length-prefix `L`; negative
`L` means an empty string and is a success (null-value convention). -/
def ExtractLongString : Decoder (List Nat) :=
  dbind ExtractInt (fun l => if l < 0 then dpure [] else readN l.toNat)

/-- Modelled from the spec: StringList — short count `N`, then `N`
Strings; any element failure fails the whole operation. -/
def ExtractStringList : Decoder (List (List Nat)) :=
  dbind ExtractShort (fun n => dcount n ExtractString)

/-- Modelled from the spec: Bytes — int32 length-prefix `L`; negative `L`
means an empty result and is a success. -/
def ExtractBytes : Decoder (List Nat) :=
  dbind ExtractInt (fun l => if l < 0 then dpure [] else readN l.toNat)

/-- Modelled from the spec: ShortBytes — short length-prefix `L` (always
non-negative), then `L` raw bytes. -/
def ExtractShortBytes : Decoder (List Nat) :=
  dbind ExtractShort (fun l => readN l)

/-- Modelled from the spec: StringMap — short count `N`, then `N`
(String key, String value) pairs, kept in wire order. -/
def ExtractStringMap : Decoder (List (List Nat × List Nat)) :=
  dbind ExtractShort (fun n =>
    dcount n (dbind ExtractString (fun k =>
      dbind ExtractString (fun v => dpure (k, v)))))

/-- Modelled from the spec: StringMultiMap — short count `N`, then `N`
(String key, StringList value) pairs. -/
def ExtractStringMultiMap : Decoder (List (List Nat × List (List Nat))) :=
  dbind ExtractShort (fun n =>
    dcount n (dbind ExtractString (fun k =>
      dbind ExtractStringList (fun v => dpure (k, v)))))

/-- Modelled from the spec: UUID — fixed 16 raw bytes. -/
def ExtractUUID : Decoder (List Nat) :=
  readN 16

/-- An Option value: a short type code, plus the custom type name when the
code denotes the custom variant (code 0). -/
structure OptionVal where
  type : Nat
  value : List Nat
deriving DecidableEq, Repr

/-- Modelled from the spec: Option — short type code; when the code is the
"custom" variant (0x0000), a String with the custom type name follows;
otherwise no trailing payload. -/
def ExtractOption : Decoder OptionVal :=
  dbind ExtractShort (fun code =>
    dbind (dif (code == 0) ExtractString []) (fun s =>
      dpure ⟨code, s⟩))

/-- Decoded query parameters of a QUERY/EXECUTE message. -/
structure QueryParameters where
  consistency : Nat
  flags : Nat
  names : List (List Nat)
  values : List (List Nat)
  page_size : Int
  paging_state : List Nat
  serial_consistency : Nat
  timestamp : Int
deriving DecidableEq, Repr

/-- Modelled from the spec: QueryParameters — consistency (short), flag
bitmap (byte), then flag-gated fields: bound values (flag 0x01; count
short, each value optionally preceded by a name String under flag 0x40,
followed by a Bytes payload), page size (int, flag 0x04), paging state
(Bytes, flag 0x08), serial consistency (short, flag 0x10), timestamp
(long, flag 0x20). -/
def ExtractQueryParameters : Decoder QueryParameters :=
  dbind ExtractShort (fun consistency =>
  dbind ExtractByte (fun flags =>
  dbind (dif ((flags &&& 0x01) != 0)
          (dbind ExtractShort (fun n =>
            dcount n (dbind (dif ((flags &&& 0x40) != 0) ExtractString []) (fun nm =>
              dbind ExtractBytes (fun v => dpure (nm, v)))))) []) (fun nvs =>
  dbind (dif ((flags &&& 0x04) != 0) ExtractInt 0) (fun psize =>
  dbind (dif ((flags &&& 0x08) != 0) ExtractBytes []) (fun pstate =>
  dbind (dif ((flags &&& 0x10) != 0) ExtractShort 0) (fun serial =>
  dbind (dif ((flags &&& 0x20) != 0) ExtractLong 0) (fun ts =>
  dpure ⟨consistency, flags,
         if (flags &&& 0x40) != 0 then nvs.map Prod.fst else [],
         nvs.map Prod.snd, psize, pstate, serial, ts⟩)))))))

/-- One column specification of a result's metadata. -/
structure ColSpec where
  keyspace : List Nat
  table : List Nat
  name : List Nat
  type : OptionVal
deriving DecidableEq, Repr

/-- Modelled from the spec: one column spec — per-column keyspace and
table Strings when the global-table-spec flag is unset, then the column
name (String) and an Option describing its type. -/
def extractColSpec (gts : Bool) : Decoder ColSpec :=
  dbind (dif (!gts)
          (dbind ExtractString (fun ks =>
            dbind ExtractString (fun tb => dpure (ks, tb)))) ([], [])) (fun p =>
  dbind ExtractString (fun nm =>
  dbind ExtractOption (fun ty => dpure ⟨p.1, p.2, nm, ty⟩)))

/-- Decoded metadata of a result message. -/
structure ResultMetadata where
  flags : Int
  columns_count : Int
  paging_state : List Nat
  gts_keyspace_name : List Nat
  gts_table_name : List Nat
  col_specs : List ColSpec
deriving DecidableEq, Repr

/-- Modelled from the spec: ResultMetadata — flags (int32), column count
(int32), paging state (Bytes) when flag 0x02 is set, a shared (keyspace,
table) String pair when the global-table-spec flag 0x01 is set, then
`columns_count` column specs. -/
def ExtractResultMetadata : Decoder ResultMetadata :=
  dbind ExtractInt (fun flags =>
  dbind ExtractInt (fun cols =>
  dbind (dif ((flags.toNat &&& 0x02) != 0) ExtractBytes []) (fun pstate =>
  dbind (dif ((flags.toNat &&& 0x01) != 0)
          (dbind ExtractString (fun ks =>
            dbind ExtractString (fun tb => dpure (ks, tb)))) ([], [])) (fun g =>
  dbind (dcount cols.toNat (extractColSpec ((flags.toNat &&& 0x01) != 0))) (fun specs =>
  dpure ⟨flags, cols, pstate, g.1, g.2, specs⟩)))))

/-- `eof` of the decoder: true iff the whole buffer has been consumed,
i.e. no bytes remain. -/
def eofRem (rest : List Nat) : Bool :=
  rest.isEmpty

/-- The fifteen extraction operations of the TypeDecoder. -/
inductive Op where
  | byte | short | int | long
  | string | longString | stringList | bytes | shortBytes
  | stringMap | stringMultiMap | uuid | optionOp
  | queryParameters | resultMetadata
deriving DecidableEq, Repr

/-- The value an extraction operation returns, as one sum type so that the
safety statements can quantify over every operation uniformly. -/
inductive Value where
  | byte (b : Nat)
  | short (n : Nat)
  | int (n : Int)
  | long (n : Int)
  | string (s : List Nat)
  | stringList (l : List (List Nat))
  | bytes (b : List Nat)
  | stringMap (m : List (List Nat × List Nat))
  | stringMultiMap (m : List (List Nat × List (List Nat)))
  | uuid (b : List Nat)
  | optionVal (o : OptionVal)
  | queryParameters (q : QueryParameters)
  | resultMetadata (r : ResultMetadata)
deriving DecidableEq, Repr

/-- Dispatch an operation to its extraction function. -/
def applyOp : Op → Decoder Value
  | .byte => dmap Value.byte ExtractByte
  | .short => dmap Value.short ExtractShort
  | .int => dmap Value.int ExtractInt
  | .long => dmap Value.long ExtractLong
  | .string => dmap Value.string ExtractString
  | .longString => dmap Value.string ExtractLongString
  | .stringList => dmap Value.stringList ExtractStringList
  | .bytes => dmap Value.bytes ExtractBytes
  | .shortBytes => dmap Value.bytes ExtractShortBytes
  | .stringMap => dmap Value.stringMap ExtractStringMap
  | .stringMultiMap => dmap Value.stringMultiMap ExtractStringMultiMap
  | .uuid => dmap Value.uuid ExtractUUID
  | .optionOp => dmap Value.optionVal ExtractOption
  | .queryParameters => dmap Value.queryParameters ExtractQueryParameters
  | .resultMetadata => dmap Value.resultMetadata ExtractResultMetadata

/-- Modelled from the spec: the stateful view of one extraction call on
the decoder — on success the cursor advances past the consumed bytes; on
failure the decoder is left exactly as it was before the call. -/
def runOp (op : Op) (d : List Nat) : Except DecodeError Value × List Nat :=
  match applyOp op d with
  | .ok (v, rest) => (.ok v, rest)
  | .error e => (.error e, d)

/-- A byte list `E` is a valid encoding of operation `op` with value `v`
when decoding `E` alone succeeds and consumes the whole of `E`. -/
def ValidEncoding (op : Op) (E : List Nat) (v : Value) : Prop :=
  applyOp op E = .ok (v, [])

/-!  The generic stitcher (`StitchFrames` is declared, but not defined, in
`src/stirling/socket_tracer/protocols/common/interface.h`; the default
FIFO policy is modelled from the spec). -/

/-- Result of one stitching pass: the emitted records in response-arrival
order, the frames left in each queue, and the error count. -/
structure StitchResult (α : Type) where
  records : List (α × α)
  requests : List α
  responses : List α
  error_count : Nat
deriving DecidableEq, Repr

/-- Modelled from the spec: `StitchFrames` under the default stateless
FIFO correlation policy.  Each response is matched with the oldest
still-unmatched request; a matched pair is removed from both queues and
emitted as a record; a response with no matching request is discarded and
counted in `error_count`; a request with no response stays queued. -/
def StitchFrames {α : Type} : List α → List α → StitchResult α
  | reqs, [] => ⟨[], reqs, [], 0⟩
  | [], _resp :: resps =>
      let r := StitchFrames [] resps
      ⟨r.records, r.requests, r.responses, r.error_count + 1⟩
  | req :: reqs, resp :: resps =>
      let r := StitchFrames reqs resps
      ⟨(req, resp) :: r.records, r.requests, r.responses, r.error_count⟩

/-!  The ELF address converter, from
`src/stirling/obj_tools/address_converter.cc`. -/

/-- Converts between virtual addresses and binary (ELF-file) addresses by
a fixed signed offset, computed at construction time. -/
structure ElfAddressConverter where
  virtual_to_binary_addr_offset : Int
deriving DecidableEq, Repr

/-- `uint64_t` wrap-around of an integer expression. -/
def toU64 (x : Int) : Nat :=
  (x % 18446744073709551616).toNat

/-- `VirtualAddrToBinaryAddr`: `virtual_addr + virtual_to_binary_addr_offset_`
with C++ `uint64_t`/`int64_t` modular arithmetic. -/
def ElfAddressConverter.VirtualAddrToBinaryAddr
    (c : ElfAddressConverter) (virtual_addr : Nat) : Nat :=
  toU64 ((virtual_addr : Int) + c.virtual_to_binary_addr_offset)

/-- `BinaryAddrToVirtualAddr`: `binary_addr - virtual_to_binary_addr_offset_`
with C++ `uint64_t`/`int64_t` modular arithmetic. -/
def ElfAddressConverter.BinaryAddrToVirtualAddr
    (c : ElfAddressConverter) (binary_addr : Nat) : Nat :=
  toU64 ((binary_addr : Int) - c.virtual_to_binary_addr_offset)

/-!  Concrete byte samples from the TypeDecoder test file. -/

/-- The 26 lowercase ASCII letters. -/
def kAlphabet : List Nat :=
  (List.range 26).map (fun i => 97 + i)

/-- The StringList sample: count 3, then the alphabet, "abcdef", "pixie". -/
def kStringList : List Nat :=
  [0x00, 0x03, 0x00, 0x1a] ++ kAlphabet ++
  [0x00, 0x06, 0x61, 0x62, 0x63, 0x64, 0x65, 0x66] ++
  [0x00, 0x05, 0x70, 0x69, 0x78, 0x69, 0x65]

/-- The StringList sample with its first element's length byte corrupted
to 1 (the BadElement test input). -/
def kBadStringList : List Nat :=
  kStringList.set 3 1

/-- The documented query-parameters byte sample. -/
def kQueryParams : List Nat :=
  [0x00, 0x0a, 0x25, 0x00, 0x06, 0x00, 0x00, 0x00, 0x08, 0x00, 0x00, 0x00,
   0x00, 0x00, 0x00, 0x00, 0x01, 0x00, 0x00, 0x00, 0x08, 0x00, 0x00, 0x00,
   0x00, 0x00, 0x00, 0x00, 0x01, 0x00, 0x00, 0x00, 0x08, 0x00, 0x00, 0x00,
   0x00, 0x00, 0x00, 0x00, 0x01, 0x00, 0x00, 0x00, 0x08, 0x00, 0x00, 0x00,
   0x00, 0x00, 0x00, 0x00, 0x01, 0x00, 0x00, 0x00, 0x08, 0x00, 0x00, 0x00,
   0x00, 0x00, 0x00, 0x00, 0x01, 0x00, 0x00, 0x00, 0x0a, 0x31, 0x32, 0x37,
   0x34, 0x4c, 0x36, 0x33, 0x50, 0x31, 0x31, 0x00, 0x00, 0x13, 0x88, 0x00,
   0x05, 0x9e, 0x78, 0x90, 0xa3, 0x2b, 0x71]

/-- The UUID sample bytes `00 01 ... 0f`. -/
def kUUID : List Nat :=
  List.range 16

/-- One hex digit as a lowercase character. -/
def hexDigit (n : Nat) : Char :=
  Char.ofNat (if n < 10 then 48 + n else 87 + n)

/-- A byte as two lowercase hex characters. -/
def byteHexChars (b : Nat) : List Char :=
  [hexDigit (b / 16), hexDigit (b % 16)]

/-- Modelled from the spec: the canonical text form of a 16-byte UUID —
lowercase hex in hyphenated 8-4-4-4-12 groups. -/
def uuidStr (bs : List Nat) : String :=
  let g : List Nat → List Char := fun l => (l.map byteHexChars).flatten
  String.mk (g (bs.take 4) ++ ['-'] ++ g ((bs.drop 4).take 2) ++ ['-'] ++
             g ((bs.drop 6).take 2) ++ ['-'] ++ g ((bs.drop 8).take 2) ++ ['-'] ++
             g (bs.drop 10))

/-- Well-formedness of a decoding step: on success, appending trailing
bytes to the buffer leaves the value unchanged and carries the trailing
bytes through to the remainder (extension), and the remainder is a suffix
of the input buffer (every byte read lies strictly inside the consumed
prefix). -/
def Wf {α : Type} (p : Decoder α) : Prop :=
  (∀ xs t v rest, p xs = .ok (v, rest) → p (xs ++ t) = .ok (v, rest ++ t)) ∧
  (∀ xs v rest, p xs = .ok (v, rest) → ∃ c, xs = c ++ rest)

theorem wf_dpure {α : Type} (a : α) : Wf (dpure a) := by
  constructor
  · intro xs t v rest h
    simp only [dpure, Except.ok.injEq, Prod.mk.injEq] at h
    obtain ⟨rfl, rfl⟩ := h
    rfl
  · intro xs v rest h
    simp only [dpure, Except.ok.injEq, Prod.mk.injEq] at h
    exact ⟨[], by simp [h.2]⟩

theorem wf_readN (n : Nat) : Wf (readN n) := by
  constructor
  · intro xs t v rest h
    simp only [readN] at h ⊢
    split at h
    case isTrue hle =>
      simp only [Except.ok.injEq, Prod.mk.injEq] at h
      obtain ⟨rfl, rfl⟩ := h
      rw [if_pos (by simp; omega)]
      rw [List.take_append_of_le_length hle, List.drop_append_of_le_length hle]
    case isFalse => exact absurd h (by simp)
  · intro xs v rest h
    simp only [readN] at h
    split at h
    case isTrue hle =>
      simp only [Except.ok.injEq, Prod.mk.injEq] at h
      exact ⟨xs.take n, by rw [← h.2, List.take_append_drop]⟩
    case isFalse => exact absurd h (by simp)

theorem wf_dbind {α β : Type} {p : Decoder α} {f : α → Decoder β}
    (hp : Wf p) (hf : ∀ a, Wf (f a)) : Wf (dbind p f) := by
  constructor
  · intro xs t v rest h
    unfold dbind at h ⊢
    cases hpx : p xs with
    | error e => rw [hpx] at h; exact absurd h (by simp)
    | ok ar =>
      obtain ⟨a, mid⟩ := ar
      rw [hpx] at h
      rw [hp.1 xs t a mid hpx]
      exact (hf a).1 mid t v rest h
  · intro xs v rest h
    unfold dbind at h
    cases hpx : p xs with
    | error e => rw [hpx] at h; exact absurd h (by simp)
    | ok ar =>
      obtain ⟨a, mid⟩ := ar
      rw [hpx] at h
      obtain ⟨c1, hc1⟩ := hp.2 xs a mid hpx
      obtain ⟨c2, hc2⟩ := (hf a).2 mid v rest h
      exact ⟨c1 ++ c2, by rw [hc1, hc2, List.append_assoc]⟩

theorem wf_dmap {α β : Type} {f : α → β} {p : Decoder α} (hp : Wf p) :
    Wf (dmap f p) := by
  unfold dmap
  exact wf_dbind hp (fun a => wf_dpure (f a))

theorem wf_ite {α : Type} (c : Prop) [Decidable c] {p q : Decoder α}
    (hp : Wf p) (hq : Wf q) : Wf (if c then p else q) := by
  by_cases h : c
  · simpa [h] using hp
  · simpa [h] using hq

theorem wf_dif {α : Type} (c : Bool) {p : Decoder α} (d : α) (hp : Wf p) :
    Wf (dif c p d) := by
  unfold dif
  exact wf_ite _ hp (wf_dpure d)

theorem wf_dcount {α : Type} {p : Decoder α} (hp : Wf p) :
    ∀ n, Wf (dcount n p)
  | 0 => by unfold dcount; exact wf_dpure []
  | n + 1 => by
      unfold dcount
      exact wf_dbind hp (fun a =>
        wf_dbind (wf_dcount hp n) (fun as => wf_dpure (a :: as)))

theorem wf_ExtractByte : Wf ExtractByte := by
  unfold ExtractByte; exact wf_dmap (wf_readN 1)

theorem wf_ExtractShort : Wf ExtractShort := by
  unfold ExtractShort; exact wf_dmap (wf_readN 2)

theorem wf_ExtractInt : Wf ExtractInt := by
  unfold ExtractInt; exact wf_dmap (wf_readN 4)

theorem wf_ExtractLong : Wf ExtractLong := by
  unfold ExtractLong; exact wf_dmap (wf_readN 8)

theorem wf_ExtractString : Wf ExtractString := by
  unfold ExtractString; exact wf_dbind wf_ExtractShort (fun l => wf_readN l)

theorem wf_ExtractLongString : Wf ExtractLongString := by
  unfold ExtractLongString
  exact wf_dbind wf_ExtractInt (fun l => wf_ite _ (wf_dpure []) (wf_readN l.toNat))

theorem wf_ExtractStringList : Wf ExtractStringList := by
  unfold ExtractStringList
  exact wf_dbind wf_ExtractShort (fun n => wf_dcount wf_ExtractString n)

theorem wf_ExtractBytes : Wf ExtractBytes := by
  unfold ExtractBytes
  exact wf_dbind wf_ExtractInt (fun l => wf_ite _ (wf_dpure []) (wf_readN l.toNat))

theorem wf_ExtractShortBytes : Wf ExtractShortBytes := by
  unfold ExtractShortBytes; exact wf_dbind wf_ExtractShort (fun l => wf_readN l)

theorem wf_ExtractStringMap : Wf ExtractStringMap := by
  unfold ExtractStringMap
  exact wf_dbind wf_ExtractShort (fun n =>
    wf_dcount (wf_dbind wf_ExtractString (fun k =>
      wf_dbind wf_ExtractString (fun v => wf_dpure (k, v)))) n)

theorem wf_ExtractStringMultiMap : Wf ExtractStringMultiMap := by
  unfold ExtractStringMultiMap
  exact wf_dbind wf_ExtractShort (fun n =>
    wf_dcount (wf_dbind wf_ExtractString (fun k =>
      wf_dbind wf_ExtractStringList (fun v => wf_dpure (k, v)))) n)

theorem wf_ExtractUUID : Wf ExtractUUID := by
  unfold ExtractUUID; exact wf_readN 16

theorem wf_ExtractOption : Wf ExtractOption := by
  unfold ExtractOption
  exact wf_dbind wf_ExtractShort (fun code =>
    wf_dbind (wf_dif _ [] wf_ExtractString) (fun s => wf_dpure ⟨code, s⟩))

theorem wf_ExtractQueryParameters : Wf ExtractQueryParameters := by
  unfold ExtractQueryParameters
  exact wf_dbind wf_ExtractShort (fun consistency =>
    wf_dbind wf_ExtractByte (fun flags =>
      wf_dbind (wf_dif _ []
          (wf_dbind wf_ExtractShort (fun n =>
            wf_dcount (wf_dbind (wf_dif _ [] wf_ExtractString) (fun nm =>
              wf_dbind wf_ExtractBytes (fun v => wf_dpure (nm, v)))) n))) (fun nvs =>
        wf_dbind (wf_dif _ 0 wf_ExtractInt) (fun psize =>
          wf_dbind (wf_dif _ [] wf_ExtractBytes) (fun pstate =>
            wf_dbind (wf_dif _ 0 wf_ExtractShort) (fun serial =>
              wf_dbind (wf_dif _ 0 wf_ExtractLong) (fun ts =>
                wf_dpure _)))))))

theorem wf_extractColSpec (gts : Bool) : Wf (extractColSpec gts) := by
  unfold extractColSpec
  exact wf_dbind (wf_dif _ ([], [])
      (wf_dbind wf_ExtractString (fun ks =>
        wf_dbind wf_ExtractString (fun tb => wf_dpure (ks, tb))))) (fun p =>
    wf_dbind wf_ExtractString (fun nm =>
      wf_dbind wf_ExtractOption (fun ty => wf_dpure ⟨p.1, p.2, nm, ty⟩)))

theorem wf_ExtractResultMetadata : Wf ExtractResultMetadata := by
  unfold ExtractResultMetadata
  exact wf_dbind wf_ExtractInt (fun flags =>
    wf_dbind wf_ExtractInt (fun cols =>
      wf_dbind (wf_dif _ [] wf_ExtractBytes) (fun pstate =>
        wf_dbind (wf_dif _ ([], [])
            (wf_dbind wf_ExtractString (fun ks =>
              wf_dbind wf_ExtractString (fun tb => wf_dpure (ks, tb))))) (fun g =>
          wf_dbind (wf_dcount (wf_extractColSpec _) cols.toNat) (fun specs =>
            wf_dpure _)))))

theorem wf_applyOp : ∀ op, Wf (applyOp op) := by
  intro op
  cases op
  case byte => exact wf_dmap wf_ExtractByte
  case short => exact wf_dmap wf_ExtractShort
  case int => exact wf_dmap wf_ExtractInt
  case long => exact wf_dmap wf_ExtractLong
  case string => exact wf_dmap wf_ExtractString
  case longString => exact wf_dmap wf_ExtractLongString
  case stringList => exact wf_dmap wf_ExtractStringList
  case bytes => exact wf_dmap wf_ExtractBytes
  case shortBytes => exact wf_dmap wf_ExtractShortBytes
  case stringMap => exact wf_dmap wf_ExtractStringMap
  case stringMultiMap => exact wf_dmap wf_ExtractStringMultiMap
  case uuid => exact wf_dmap wf_ExtractUUID
  case optionOp => exact wf_dmap wf_ExtractOption
  case queryParameters => exact wf_dmap wf_ExtractQueryParameters
  case resultMetadata => exact wf_dmap wf_ExtractResultMetadata

/-- C1: every TypeDecoder extraction operation, on every input buffer
(including adversarial or truncated ones), is total and either fails with
the single error kind `InsufficientData` or returns a decoded value having
consumed a prefix of the buffer: the remainder it returns is a suffix of
the input, so every byte read lies strictly inside the buffer and no read
ever occurs at or past the buffer's end. -/
theorem extraction_safe (op : Op) (xs : List Nat) :
    applyOp op xs = .error .InsufficientData ∨
    ∃ v c rest, applyOp op xs = .ok (v, rest) ∧ xs = c ++ rest := by
  cases h : applyOp op xs with
  | error e => cases e; exact Or.inl rfl
  | ok vr =>
    obtain ⟨v, rest⟩ := vr
    obtain ⟨c, hc⟩ := (wf_applyOp op).2 xs v rest h
    exact Or.inr ⟨v, c, rest, rfl, hc⟩

/-- C2: every extraction call either succeeds, advancing the cursor past
exactly the bytes it consumed (the buffer splits as consumed ++ remaining),
or fails and leaves the cursor exactly where it was before the call; in
particular, on the StringList input whose first element is corrupted so
that a later element fails mid-sequence, the whole operation fails and the
bytes consumed by previously decoded elements are rolled back. -/
theorem extraction_cursor_discipline :
    (∀ (op : Op) (d : List Nat),
      (∃ v c rest, runOp op d = (.ok v, rest) ∧ d = c ++ rest) ∨
      runOp op d = (.error .InsufficientData, d)) ∧
    ExtractStringList kBadStringList = .error .InsufficientData ∧
    runOp .stringList kBadStringList = (.error .InsufficientData, kBadStringList) := by
  refine ⟨?_, rfl, rfl⟩
  intro op d
  cases h : applyOp op d with
  | error e =>
    cases e
    right
    unfold runOp
    rw [h]
  | ok vr =>
    obtain ⟨v, rest⟩ := vr
    obtain ⟨c, hc⟩ := (wf_applyOp op).2 d v rest h
    exact Or.inl ⟨v, c, rest, by unfold runOp; rw [h], hc⟩

/-- C3 as stated is false at `T = []`: for the valid int encoding
`01 23 45 67` and empty trailing bytes, decoding `E ++ T` succeeds with
the same value and consumes exactly `|E|` bytes, but `eof()` is then
`true`, not `false` as the claim requires for every trailing `T`. -/
theorem exactness_eof_cex :
    ValidEncoding .int [0x01, 0x23, 0x45, 0x67] (Value.int 0x01234567) ∧
    applyOp .int ([0x01, 0x23, 0x45, 0x67] ++ ([] : List Nat)) =
      .ok (Value.int 0x01234567, []) ∧
    ¬ eofRem [] = false := by
  exact ⟨rfl, rfl, by decide⟩

/-- C3 (amended): for every valid encoding E of any field type and every
list of trailing bytes T, decoding `E ++ T` succeeds, returns the same
value as decoding E alone, and leaves exactly T unconsumed — the cursor
advanced by exactly `|E|`; whenever T is nonempty, `eof()` is false
afterwards. -/
theorem exactness_amended (op : Op) (E : List Nat) (v : Value) (T : List Nat)
    (hE : ValidEncoding op E v) :
    applyOp op (E ++ T) = .ok (v, T) ∧
    (E ++ T).length - T.length = E.length ∧
    (T ≠ [] → eofRem T = false) := by
  have hE' : applyOp op E = .ok (v, []) := hE
  have h := (wf_applyOp op).1 E T v [] hE'
  simp only [List.nil_append] at h
  refine ⟨h, by simp, ?_⟩
  intro hT
  cases T with
  | nil => exact absurd rfl hT
  | cons a as => rfl

/-- Witness for the amended C3 at the int encoding plus one trailing
byte. -/
theorem exactness_amended_witness :
    ValidEncoding .int [0x01, 0x23, 0x45, 0x67] (Value.int 0x01234567) ∧
    applyOp .int ([0x01, 0x23, 0x45, 0x67] ++ [0x99]) =
      .ok (Value.int 0x01234567, [0x99]) := by
  exact ⟨rfl, (exactness_amended .int [0x01, 0x23, 0x45, 0x67]
    (Value.int 0x01234567) [0x99] rfl).1⟩

/-- C4: for every valid encoding E of any field type, decoding any strict
prefix of E fails with `InsufficientData`. -/
theorem truncation_insufficient (op : Op) (E P s : List Nat) (v : Value)
    (hE : ValidEncoding op E v) (hP : E = P ++ s) (hs : s ≠ []) :
    applyOp op P = .error .InsufficientData := by
  cases h : applyOp op P with
  | error e => cases e; rfl
  | ok wr =>
    obtain ⟨w, rest⟩ := wr
    have hE' : applyOp op E = .ok (v, []) := hE
    have hext := (wf_applyOp op).1 P s w rest h
    rw [← hP, hE'] at hext
    simp only [Except.ok.injEq, Prod.mk.injEq] at hext
    exact absurd (List.append_eq_nil.mp hext.2.symm).2 hs

/-- Witness for C4: the 3-byte strict prefix of the int encoding fails. -/
theorem truncation_insufficient_witness :
    ValidEncoding .int [0x01, 0x23, 0x45, 0x67] (Value.int 0x01234567) ∧
    applyOp .int [0x01, 0x23, 0x45] = .error .InsufficientData := by
  exact ⟨rfl, truncation_insufficient .int [0x01, 0x23, 0x45, 0x67]
    [0x01, 0x23, 0x45] [0x67] (Value.int 0x01234567) rfl rfl (by decide)⟩

/-- C5: on every buffer whose next four bytes read as a negative
big-endian int32, ExtractLongString and ExtractBytes succeed with an
empty value and consume exactly the 4-byte length header; when nothing
follows the header, `eof()` is true afterwards.  A negative length prefix
is never an error. -/
theorem negative_length_null (b0 b1 b2 b3 : Nat) (t : List Nat)
    (hneg : toSigned 32 (beNat [b0, b1, b2, b3]) < 0) :
    ExtractLongString ([b0, b1, b2, b3] ++ t) = .ok ([], t) ∧
    ExtractBytes ([b0, b1, b2, b3] ++ t) = .ok ([], t) ∧
    (t = [] → eofRem t = true) := by
  have h4 : readN 4 (b0 :: b1 :: b2 :: b3 :: t) = .ok ([b0, b1, b2, b3], t) := by
    unfold readN
    rw [if_pos (by simp only [List.length_cons]; omega)]
    rfl
  have hInt : ExtractInt (b0 :: b1 :: b2 :: b3 :: t) =
      .ok (toSigned 32 (beNat [b0, b1, b2, b3]), t) := by
    simp only [ExtractInt, dmap, dbind, dpure, h4]
  have both : dbind ExtractInt
      (fun l : Int => if l < 0 then dpure ([] : List Nat) else readN l.toNat)
      (b0 :: b1 :: b2 :: b3 :: t) = .ok ([], t) := by
    simp only [dbind, hInt, if_pos hneg, dpure]
  refine ⟨both, both, ?_⟩
  intro ht
  rw [ht]
  rfl

/-- Witness for C5 at the test bytes `f0 00 00 00` with nothing after the
header. -/
theorem negative_length_null_witness :
    toSigned 32 (beNat [0xf0, 0x00, 0x00, 0x00]) < 0 ∧
    ExtractLongString ([0xf0, 0x00, 0x00, 0x00] ++ ([] : List Nat)) = .ok ([], []) ∧
    ExtractBytes ([0xf0, 0x00, 0x00, 0x00] ++ ([] : List Nat)) = .ok ([], []) ∧
    eofRem [] = true := by
  have h := negative_length_null 0xf0 0x00 0x00 0x00 [] (by decide)
  exact ⟨by decide, h.1, h.2.1, h.2.2 rfl⟩

/-- C6: ExtractUUID consumes exactly 16 bytes and yields those bytes; its
canonical text form on the sample bytes `00 01 ... 0f` is the hyphenated
hex 8-4-4-4-12 grouping; and on every buffer with fewer than 16 bytes
remaining, ExtractUUID itself fails with `InsufficientData` through its
own fixed-16-byte bounds check, leaving the cursor unchanged. -/
theorem uuid_extraction :
    (∀ (bs t : List Nat), bs.length = 16 → ExtractUUID (bs ++ t) = .ok (bs, t)) ∧
    (∀ xs : List Nat, xs.length < 16 →
      ExtractUUID xs = .error .InsufficientData ∧
      runOp .uuid xs = (.error .InsufficientData, xs)) ∧
    ExtractUUID kUUID = .ok (kUUID, []) ∧
    uuidStr kUUID = "00010203-0405-0607-0809-0a0b0c0d0e0f" := by
  refine ⟨?_, ?_, rfl, by decide⟩
  · intro bs t h
    unfold ExtractUUID readN
    rw [if_pos (by rw [List.length_append, h]; omega)]
    rw [← h, List.take_left, List.drop_left]
  · intro xs h
    have he : ExtractUUID xs = .error .InsufficientData := by
      unfold ExtractUUID readN
      rw [if_neg (by omega)]
    refine ⟨he, ?_⟩
    have ha : applyOp .uuid xs = .error .InsufficientData := by
      show dmap Value.uuid ExtractUUID xs = _
      simp only [dmap, dbind, he]
    unfold runOp
    rw [ha]

/-- Witness for C6 at the sample bytes with one trailing byte, and at the
empty buffer. -/
theorem uuid_extraction_witness :
    ([0, 1, 2, 3, 4, 5, 6, 7, 8, 9, 10, 11, 12, 13, 14, 15] : List Nat).length = 16 ∧
    ExtractUUID ([0, 1, 2, 3, 4, 5, 6, 7, 8, 9, 10, 11, 12, 13, 14, 15] ++ [0x42]) =
      .ok ([0, 1, 2, 3, 4, 5, 6, 7, 8, 9, 10, 11, 12, 13, 14, 15], [0x42]) ∧
    ([] : List Nat).length < 16 ∧
    ExtractUUID [] = .error .InsufficientData := by
  exact ⟨rfl, uuid_extraction.1 _ [0x42] rfl, by decide,
    (uuid_extraction.2.1 [] (by decide)).1⟩

/-- C7: on the documented query-parameters byte sample, decoding succeeds
consuming the whole buffer and yields consistency 10, flags 0x25, no
names, exactly six bound values whose sixth is the bytes of "1274L63P11",
page size 5000, empty paging state, and timestamp 1581615543430001. -/
theorem query_params_sample :
    ExtractQueryParameters kQueryParams =
      .ok ({ consistency := 10, flags := 0x25, names := [],
             values := [[0, 0, 0, 0, 0, 0, 0, 1], [0, 0, 0, 0, 0, 0, 0, 1],
                        [0, 0, 0, 0, 0, 0, 0, 1], [0, 0, 0, 0, 0, 0, 0, 1],
                        [0, 0, 0, 0, 0, 0, 0, 1],
                        "1274L63P11".toList.map Char.toNat],
             page_size := 5000, paging_state := [], serial_consistency := 0,
             timestamp := 1581615543430001 }, []) := by
  rfl

/-- C8: under the default stateless FIFO policy, stitching two queues of
equal length with no drops emits exactly one record per pair, the i-th
record pairing the i-th request with the i-th response (the zip of the two
queues), with error count 0 and both queues left empty. -/
theorem stitch_fifo (α : Type) (reqs resps : List α)
    (h : reqs.length = resps.length) :
    StitchFrames reqs resps = ⟨reqs.zip resps, [], [], 0⟩ := by
  induction reqs generalizing resps with
  | nil =>
    cases resps with
    | nil => rfl
    | cons p ps => simp at h
  | cons r rs ih =>
    cases resps with
    | nil => simp at h
    | cons p ps =>
      have hih := ih ps (by simpa using h)
      simp [StitchFrames, hih]

/-- Witness for C8 on three concrete request/response pairs. -/
theorem stitch_fifo_witness :
    ([10, 20, 30] : List Nat).length = ([11, 21, 31] : List Nat).length ∧
    StitchFrames ([10, 20, 30] : List Nat) [11, 21, 31] =
      ⟨[(10, 11), (20, 21), (30, 31)], [], [], 0⟩ := by
  exact ⟨rfl, (stitch_fifo Nat [10, 20, 30] [11, 21, 31] rfl).trans rfl⟩

/-- C9: stitching one response against an empty request queue emits zero
records and counts one error (the dangling response is discarded,
non-fatally); and requests with no responses are not consumed — they all
remain in the request queue for a future stitching pass. -/
theorem stitch_dangling :
    (∀ (α : Type) (r : α), StitchFrames [] [r] = ⟨[], [], [], 1⟩) ∧
    (∀ (α : Type) (reqs : List α), StitchFrames reqs [] = ⟨[], reqs, [], 0⟩) := by
  constructor
  · intro α r
    rfl
  · intro α reqs
    cases reqs <;> rfl

/-- C10: for every ElfAddressConverter (any integer offset) and every
64-bit address, the two conversions are mutually inverse round-trips
under the C++ `uint64_t` modulo-2^64 arithmetic. -/
theorem addr_round_trip (c : ElfAddressConverter) (a : Nat)
    (ha : a < 18446744073709551616) :
    c.BinaryAddrToVirtualAddr (c.VirtualAddrToBinaryAddr a) = a ∧
    c.VirtualAddrToBinaryAddr (c.BinaryAddrToVirtualAddr a) = a := by
  unfold ElfAddressConverter.BinaryAddrToVirtualAddr
    ElfAddressConverter.VirtualAddrToBinaryAddr toU64
  constructor <;> omega

/-- Witness for C10 at offset -12345 and address 67890. -/
theorem addr_round_trip_witness :
    (67890 : Nat) < 18446744073709551616 ∧
    ElfAddressConverter.BinaryAddrToVirtualAddr ⟨-12345⟩
      (ElfAddressConverter.VirtualAddrToBinaryAddr ⟨-12345⟩ 67890) = 67890 := by
  exact ⟨by decide, (addr_round_trip ⟨-12345⟩ 67890 (by decide)).1⟩
